import Mathlib

/-!
Shallow embedding of the Todo service (`todo_service.py`, `models.py`):
an in-memory store of todos keyed by integer id with a monotonic id
counter, plus CRUD, filter/search/sort and statistics operations.

The Python dict `self._todos` is modelled as an insertion-ordered
association list with Python-dict semantics: assignment to an existing
key replaces the value in place, assignment to a fresh key appends,
deletion removes the key.  `datetime.now()` is modelled by passing the
current clock value (a `Nat`) explicitly to each operation that reads it.
Pydantic's `exclude_unset` patch semantics are modelled by wrapping each
patch field in `Option` (with `Option (Option String)` for `description`,
whose explicit `null` is representable and applied).
-/

namespace TodoApp

/-- `TodoStatus = Literal["pending", "in_progress", "completed"]` (models.py). -/
inductive TodoStatus
  | pending
  | in_progress
  | completed
deriving DecidableEq

/-- `TodoPriority = Literal["low", "medium", "high"]` (models.py). -/
inductive TodoPriority
  | low
  | medium
  | high
deriving DecidableEq

/-- The `Todo` pydantic model (models.py): id, title, optional description,
status, priority and the two timestamps. -/
structure Todo where
  id : Nat
  title : String
  description : Option String
  status : TodoStatus
  priority : TodoPriority
  created_at : Nat
  updated_at : Nat
deriving DecidableEq

/-- The `TodoCreate` schema (models.py): title, optional description,
priority defaulting handled by the schema layer. -/
structure TodoCreate where
  title : String
  description : Option String
  priority : TodoPriority
deriving DecidableEq

/-- The `TodoUpdate` schema (models.py) together with pydantic's
set-field tracking: `none` means the field was not present in the patch
(`exclude_unset` drops it); `some v` means it was explicitly present with
value `v`.  For `description` the explicitly-present value is itself an
`Option String`, so `some none` is an explicit `null`. -/
structure TodoUpdate where
  title : Option String
  description : Option (Option String)
  status : Option TodoStatus
  priority : Option TodoPriority
deriving DecidableEq

/-- `self._todos.get(todo_id)`: first value stored under the key. -/
def dictGet (m : List (Nat × Todo)) (k : Nat) : Option Todo :=
  match m with
  | [] => none
  | p :: rest => if p.1 = k then some p.2 else dictGet rest k

/-- `todo_id in self._todos`. -/
def dictHas (m : List (Nat × Todo)) (k : Nat) : Bool :=
  match m with
  | [] => false
  | p :: rest => decide (p.1 = k) || dictHas rest k

/-- `self._todos[k] = v`: replace in place when the key exists, append
otherwise (Python dicts preserve insertion order). -/
def dictSet (m : List (Nat × Todo)) (k : Nat) (v : Todo) : List (Nat × Todo) :=
  if dictHas m k then m.map (fun p => if p.1 = k then (k, v) else p)
  else m ++ [(k, v)]

/-- `del self._todos[k]`: drop the entry with the given key. -/
def dictErase (m : List (Nat × Todo)) (k : Nat) : List (Nat × Todo) :=
  match m with
  | [] => []
  | p :: rest => if p.1 = k then rest else p :: dictErase rest k

/-- The `TodoService` state (`todo_service.py`): `_todos` and `_next_id`. -/
structure TodoService where
  todos : List (Nat × Todo)
  next_id : Nat
deriving DecidableEq

/-- `TodoService.__init__`: empty dict, counter at 1. -/
def initService : TodoService := { todos := [], next_id := 1 }

/-- `TodoService.create_todo`: build the entity with `status="pending"`,
both timestamps set to `now`, store it under `_next_id`, then increment
the counter, returning the new todo. -/
def create_todo (s : TodoService) (todo_data : TodoCreate) (now : Nat) :
    Todo × TodoService :=
  let todo : Todo :=
    { id := s.next_id
      title := todo_data.title
      description := todo_data.description
      status := TodoStatus.pending
      priority := todo_data.priority
      created_at := now
      updated_at := now }
  (todo, { todos := dictSet s.todos s.next_id todo, next_id := s.next_id + 1 })

/-- `TodoService.get_todo`. -/
def get_todo (s : TodoService) (todo_id : Nat) : Option Todo :=
  dictGet s.todos todo_id

/-- Python `s.lower()` as a character sequence: per-character lowercasing. -/
def lower (s : String) : List Char :=
  s.data.map Char.toLower

/-- The body of the `search` filter predicate in `list_todos`:
`search_lower in todo.title.lower() or (todo.description and search_lower
in todo.description.lower())`.  `x in y` on Python strings is substring
containment; a `None` or empty description is falsy and never matches. -/
def searchMatch (search_lower : List Char) (todo : Todo) : Bool :=
  decide (search_lower <:+: lower todo.title) ||
    (match todo.description with
     | none => false
     | some d => !decide (d = "") && decide (search_lower <:+: lower d))

/-- The `if status:` stage of `list_todos`: keep exact status matches
when a status is given. -/
def statusFilter (status : Option TodoStatus) (todos : List Todo) : List Todo :=
  match status with
  | none => todos
  | some st => todos.filter (fun t => decide (t.status = st))

/-- The `if priority:` stage of `list_todos`: keep exact priority matches
when a priority is given. -/
def priorityFilter (priority : Option TodoPriority) (todos : List Todo) : List Todo :=
  match priority with
  | none => todos
  | some pr => todos.filter (fun t => decide (t.priority = pr))

/-- The `if search:` stage of `list_todos`.  A `None` or empty search
string is falsy in Python, so it applies no filter. -/
def searchFilter (search : Option String) (todos : List Todo) : List Todo :=
  match search with
  | none => todos
  | some q =>
    if q = "" then todos
    else todos.filter (searchMatch (lower q))

/-- The three sequential filter stages of `TodoService.list_todos`
(status, then priority, then search), before sorting. -/
def filtered_todos (s : TodoService) (status : Option TodoStatus)
    (priority : Option TodoPriority) (search : Option String) : List Todo :=
  searchFilter search (priorityFilter priority (statusFilter status (s.todos.map Prod.snd)))

/-- The comparison passed to the final sort of `list_todos`:
`todos.sort(key=lambda x: x.created_at, reverse=True)`. -/
def createdAtDesc (a b : Todo) : Bool :=
  decide (b.created_at ≤ a.created_at)

/-- `TodoService.list_todos`: filter, then stable-sort by `created_at`
descending (Python's `list.sort` is stable; `List.mergeSort` is the
stable sort of the library, so both produce the identical sequence). -/
def list_todos (s : TodoService) (status : Option TodoStatus)
    (priority : Option TodoPriority) (search : Option String) : List Todo :=
  (filtered_todos s status priority search).mergeSort createdAtDesc

/-- `TodoService.update_todo`: absent id yields `None` and no change;
otherwise every field present in the patch (after `exclude_unset`) is
assigned onto the stored entity, `updated_at` is set unconditionally, and
the mutated entity (still stored under its key) is returned. -/
def update_todo (s : TodoService) (todo_id : Nat) (updates : TodoUpdate)
    (now : Nat) : Option Todo × TodoService :=
  match dictGet s.todos todo_id with
  | none => (none, s)
  | some todo =>
    let todo1 : Todo :=
      { id := todo.id
        title := updates.title.getD todo.title
        description := updates.description.getD todo.description
        status := updates.status.getD todo.status
        priority := updates.priority.getD todo.priority
        created_at := todo.created_at
        updated_at := now }
    (some todo1, { s with todos := dictSet s.todos todo_id todo1 })

/-- `TodoService.delete_todo`. -/
def delete_todo (s : TodoService) (todo_id : Nat) : Bool × TodoService :=
  if dictHas s.todos todo_id then
    (true, { s with todos := dictErase s.todos todo_id })
  else (false, s)

/-- The return shape of `TodoService.get_stats`: the `total` count plus
the three `by_status` entries and the three `by_priority` entries. -/
structure TodoStats where
  total : Nat
  pending : Nat
  in_progress : Nat
  completed : Nat
  low : Nat
  medium : Nat
  high : Nat
deriving DecidableEq

/-- `TodoService.get_stats`: zero-filled shortcut on the empty store,
otherwise one count per status and per priority over all stored todos. -/
def get_stats (s : TodoService) : TodoStats :=
  let todos := s.todos.map Prod.snd
  let total := todos.length
  if total = 0 then
    { total := 0, pending := 0, in_progress := 0, completed := 0,
      low := 0, medium := 0, high := 0 }
  else
    { total := total
      pending := todos.countP (fun t => decide (t.status = TodoStatus.pending))
      in_progress := todos.countP (fun t => decide (t.status = TodoStatus.in_progress))
      completed := todos.countP (fun t => decide (t.status = TodoStatus.completed))
      low := todos.countP (fun t => decide (t.priority = TodoPriority.low))
      medium := todos.countP (fun t => decide (t.priority = TodoPriority.medium))
      high := todos.countP (fun t => decide (t.priority = TodoPriority.high)) }

/-- `TodoService.mark_completed`: absent id yields `None`; otherwise set
`status = "completed"`, bump `updated_at`, return the mutated entity. -/
def mark_completed (s : TodoService) (todo_id : Nat) (now : Nat) :
    Option Todo × TodoService :=
  match dictGet s.todos todo_id with
  | none => (none, s)
  | some todo =>
    let todo1 : Todo := { todo with status := TodoStatus.completed, updated_at := now }
    (some todo1, { s with todos := dictSet s.todos todo_id todo1 })

/-- `TodoService.clear_completed`: collect the ids of completed todos,
delete each from the dict, return how many there were. -/
def clear_completed (s : TodoService) : Nat × TodoService :=
  let completed_ids :=
    (s.todos.filter (fun p => decide (p.2.status = TodoStatus.completed))).map Prod.fst
  (completed_ids.length, { s with todos := completed_ids.foldl dictErase s.todos })

/-- One client call against the service, for reasoning about call
sequences.  `create` carries its input and the clock value observed. -/
inductive Op
  | create (d : TodoCreate) (now : Nat)
  | update (id : Nat) (u : TodoUpdate) (now : Nat)
  | markCompleted (id : Nat) (now : Nat)
  | delete (id : Nat)
  | clearCompleted

/-- Run one call; the second component is the id returned when the call
was a `create`. -/
def runOp (s : TodoService) : Op → TodoService × Option Nat
  | Op.create d now => ((create_todo s d now).2, some (create_todo s d now).1.id)
  | Op.update id u now => ((update_todo s id u now).2, none)
  | Op.markCompleted id now => ((mark_completed s id now).2, none)
  | Op.delete id => ((delete_todo s id).2, none)
  | Op.clearCompleted => ((clear_completed s).2, none)

/-- The ids returned by the `create` calls of a call sequence, in order. -/
def createdIds (s : TodoService) : List Op → List Nat
  | [] => []
  | op :: ops =>
    match (runOp s op).2 with
    | some i => i :: createdIds (runOp s op).1 ops
    | none => createdIds (runOp s op).1 ops

/-- How many `create` calls a call sequence contains. -/
def countCreates : List Op → Nat
  | [] => 0
  | Op.create _ _ :: ops => countCreates ops + 1
  | Op.update _ _ _ :: ops => countCreates ops
  | Op.markCompleted _ _ :: ops => countCreates ops
  | Op.delete _ :: ops => countCreates ops
  | Op.clearCompleted :: ops => countCreates ops

/-- A concrete pending todo, used to instantiate theorems with hypotheses. -/
def sampleTodo : Todo :=
  { id := 1, title := "A", description := some "d", status := TodoStatus.pending,
    priority := TodoPriority.medium, created_at := 3, updated_at := 3 }

/-- A concrete completed todo. -/
def doneTodo : Todo :=
  { id := 2, title := "B", description := none, status := TodoStatus.completed,
    priority := TodoPriority.low, created_at := 5, updated_at := 6 }

/-- A service holding only `sampleTodo`. -/
def sampleService : TodoService :=
  { todos := [(1, sampleTodo)], next_id := 2 }

/-- A service holding one pending and one completed todo. -/
def sampleService2 : TodoService :=
  { todos := [(1, sampleTodo), (2, doneTodo)], next_id := 3 }

/-- Two todos sharing the same `created_at`, to exercise sort ties. -/
def tieA : Todo :=
  { id := 1, title := "A", description := none, status := TodoStatus.pending,
    priority := TodoPriority.medium, created_at := 7, updated_at := 7 }

/-- Second todo of the tie pair. -/
def tieB : Todo :=
  { id := 2, title := "B", description := none, status := TodoStatus.pending,
    priority := TodoPriority.medium, created_at := 7, updated_at := 7 }

/-- A service holding the two tied todos in insertion order. -/
def tieService : TodoService :=
  { todos := [(1, tieA), (2, tieB)], next_id := 3 }

/-! ## Dictionary lemmas -/

theorem dictGet_eq_none_iff (m : List (Nat × Todo)) (k : Nat) :
    dictGet m k = none ↔ dictHas m k = false := by
  induction m with
  | nil => simp [dictGet, dictHas]
  | cons p rest ih =>
    by_cases h : p.1 = k <;> simp [dictGet, dictHas, h, ih]

theorem dictGet_map_replace (m : List (Nat × Todo)) (k : Nat) (v : Todo)
    (h : dictHas m k = true) :
    dictGet (m.map (fun p => if p.1 = k then (k, v) else p)) k = some v := by
  induction m with
  | nil => simp [dictHas] at h
  | cons p rest ih =>
    by_cases hp : p.1 = k
    · simp [dictGet, hp]
    · have h' : dictHas rest k = true := by simpa [dictHas, hp] using h
      simp [dictGet, hp, ih h']

theorem dictGet_append_right (m l : List (Nat × Todo)) (k : Nat)
    (h : dictHas m k = false) :
    dictGet (m ++ l) k = dictGet l k := by
  induction m with
  | nil => simp
  | cons p rest ih =>
    have hp : ¬ p.1 = k := by
      intro e; simp [dictHas, e] at h
    have h' : dictHas rest k = false := by simpa [dictHas, hp] using h
    simp [dictGet, hp, ih h']

theorem dictGet_dictSet_self (m : List (Nat × Todo)) (k : Nat) (v : Todo) :
    dictGet (dictSet m k v) k = some v := by
  unfold dictSet
  by_cases h : dictHas m k = true
  · simp [h, dictGet_map_replace m k v h]
  · have h' : dictHas m k = false := by simpa using h
    simp [h', dictGet_append_right m _ k h', dictGet]

/-! ## C9: markCompleted is update with a status-only patch -/

/-- C9: for every id and store state (and clock value), `mark_completed`
returns the same result and leaves the store in the same state as
`update_todo` with the patch whose only present field is
`status = completed`: absence on an unknown id, otherwise the entity with
status set to completed and `updated_at` bumped to the current time. -/
theorem mark_completed_eq_update (s : TodoService) (todo_id now : Nat) :
    mark_completed s todo_id now =
      update_todo s todo_id
        { title := none, description := none,
          status := some TodoStatus.completed, priority := none } now := by
  unfold mark_completed update_todo
  cases dictGet s.todos todo_id <;> rfl

/-! ## C8: unknown ids are signalled as absence with no state change -/

/-- C8: for every id not present in the store, `get_todo` returns `none`,
`update_todo` and `mark_completed` return `none`, `delete_todo` returns
`false`, and each failed call leaves the whole service state (entities
and next-id counter) unchanged.  No exception is modelled: every
operation is total. -/
theorem unknown_id_no_effect (s : TodoService) (todo_id now : Nat)
    (u : TodoUpdate) (h : dictGet s.todos todo_id = none) :
    get_todo s todo_id = none ∧
    update_todo s todo_id u now = (none, s) ∧
    mark_completed s todo_id now = (none, s) ∧
    delete_todo s todo_id = (false, s) := by
  have hh : dictHas s.todos todo_id = false := (dictGet_eq_none_iff _ _).mp h
  refine ⟨h, ?_, ?_, ?_⟩
  · unfold update_todo; rw [h]
  · unfold mark_completed; rw [h]
  · unfold delete_todo; simp [hh]

/-- Witness for C8 at the one-entry sample store and the unknown id 5. -/
theorem unknown_id_no_effect_witness :
    get_todo sampleService 5 = none ∧
    update_todo sampleService 5
        { title := none, description := none, status := none, priority := none } 9 =
      (none, sampleService) ∧
    mark_completed sampleService 5 9 = (none, sampleService) ∧
    delete_todo sampleService 5 = (false, sampleService) :=
  unknown_id_no_effect sampleService 5 9
    { title := none, description := none, status := none, priority := none } rfl

/-! ## C2: update is a sparse partial patch -/

/-- C2: for every stored todo and every patch, `update_todo` applies
exactly the fields explicitly present in the patch; every field not
present (and always `id` and `created_at`) keeps its prior value, while
`updated_at` is set to the clock unconditionally.  An empty patch changes
nothing but `updated_at`.  The updated entity is returned and is what is
stored back under the id. -/
theorem update_todo_partial_patch (s : TodoService) (todo_id now : Nat)
    (u : TodoUpdate) (t : Todo) (h : dictGet s.todos todo_id = some t) :
    ∃ t', (update_todo s todo_id u now).1 = some t' ∧
      (update_todo s todo_id u now).2 = { s with todos := dictSet s.todos todo_id t' } ∧
      t'.id = t.id ∧ t'.created_at = t.created_at ∧ t'.updated_at = now ∧
      (u.title = none → t'.title = t.title) ∧
      (∀ v, u.title = some v → t'.title = v) ∧
      (u.description = none → t'.description = t.description) ∧
      (∀ v, u.description = some v → t'.description = v) ∧
      (u.status = none → t'.status = t.status) ∧
      (∀ v, u.status = some v → t'.status = v) ∧
      (u.priority = none → t'.priority = t.priority) ∧
      (∀ v, u.priority = some v → t'.priority = v) ∧
      (u = { title := none, description := none, status := none, priority := none } →
        t' = { t with updated_at := now }) := by
  unfold update_todo
  rw [h]
  refine ⟨_, rfl, rfl, rfl, rfl, rfl, ?_, ?_, ?_, ?_, ?_, ?_, ?_, ?_, ?_⟩
  · intro hx; simp [hx]
  · intro v hv; simp [hv]
  · intro hx; simp [hx]
  · intro v hv; simp [hv]
  · intro hx; simp [hx]
  · intro v hv; simp [hv]
  · intro hx; simp [hx]
  · intro v hv; simp [hv]
  · intro hu; subst hu; rfl

/-- Witness for C2: the empty patch on the sample store returns the
stored todo with only `updated_at` changed. -/
theorem update_todo_partial_patch_witness :
    (update_todo sampleService 1
        { title := none, description := none, status := none, priority := none } 7).1 =
      some { sampleTodo with updated_at := 7 } := by
  obtain ⟨t', h1, -, -, -, -, -, -, -, -, -, -, -, -, hlast⟩ :=
    update_todo_partial_patch sampleService 1 7
      { title := none, description := none, status := none, priority := none }
      sampleTodo rfl
  rw [h1, hlast rfl]

/-! ## C10: an explicitly-null description field is applied -/

/-- C10: for every stored todo whose description is present, updating it
with a patch whose `description` field is explicitly present and set to
the absent value clears the stored description: the explicitly-null field
survives `exclude_unset` and is assigned, so the returned and stored
entity has no description. -/
theorem update_null_description_clears (s : TodoService) (todo_id now : Nat)
    (t : Todo) (d : String) (h1 : dictGet s.todos todo_id = some t)
    (_h2 : t.description = some d) :
    ∃ t', (update_todo s todo_id
        { title := none, description := some none, status := none, priority := none }
        now).1 = some t' ∧
      t'.description = none ∧
      dictGet (update_todo s todo_id
        { title := none, description := some none, status := none, priority := none }
        now).2.todos todo_id = some t' := by
  unfold update_todo
  rw [h1]
  exact ⟨_, rfl, rfl, dictGet_dictSet_self _ _ _⟩

/-- Witness for C10: clearing the description of `sampleTodo` (whose
description is `some "d"`). -/
theorem update_null_description_clears_witness :
    ∃ t', (update_todo sampleService 1
        { title := none, description := some none, status := none, priority := none }
        8).1 = some t' ∧
      t'.description = none ∧
      dictGet (update_todo sampleService 1
        { title := none, description := some none, status := none, priority := none }
        8).2.todos 1 = some t' :=
  update_null_description_clears sampleService 1 8 sampleTodo "d" rfl rfl

/-! ## C1: created ids are 1, 2, 3, ... regardless of interleaved calls -/

theorem update_todo_next_id (s : TodoService) (todo_id : Nat) (u : TodoUpdate)
    (now : Nat) : (update_todo s todo_id u now).2.next_id = s.next_id := by
  unfold update_todo
  cases dictGet s.todos todo_id <;> rfl

theorem mark_completed_next_id (s : TodoService) (todo_id now : Nat) :
    (mark_completed s todo_id now).2.next_id = s.next_id := by
  unfold mark_completed
  cases dictGet s.todos todo_id <;> rfl

theorem delete_todo_next_id (s : TodoService) (todo_id : Nat) :
    (delete_todo s todo_id).2.next_id = s.next_id := by
  unfold delete_todo
  split <;> rfl

theorem clear_completed_next_id (s : TodoService) :
    (clear_completed s).2.next_id = s.next_id := rfl

theorem createdIds_eq_range (ops : List Op) :
    ∀ s : TodoService, createdIds s ops = List.range' s.next_id (countCreates ops) := by
  induction ops with
  | nil => intro s; rfl
  | cons op ops ih =>
    intro s
    cases op with
    | create d now =>
      simp [createdIds, runOp, countCreates, ih, create_todo, List.range'_succ]
    | update id u now =>
      simp [createdIds, runOp, countCreates, ih, update_todo_next_id]
    | markCompleted id now =>
      simp [createdIds, runOp, countCreates, ih, mark_completed_next_id]
    | delete id =>
      simp [createdIds, runOp, countCreates, ih, delete_todo_next_id]
    | clearCompleted =>
      simp [createdIds, runOp, countCreates, ih, clear_completed_next_id]

/-- C1: for every call sequence against a fresh service — creates with
any updates, deletes, markCompleted and clearCompleted calls interleaved
— the ids returned by the create calls are exactly `1, 2, 3, ...` in
order (`List.range' 1 k` for `k` creates).  In particular each create
returns one more than the previous create, and since the sequence is
strictly increasing, an id freed by a delete or clearCompleted (one of
the earlier values) is never assigned again. -/
theorem create_ids_sequential (ops : List Op) :
    createdIds initService ops = List.range' 1 (countCreates ops) :=
  createdIds_eq_range ops initService

/-! ## C3: stats is zero-filled and internally consistent -/

theorem length_eq_sum_status_counts (l : List Todo) :
    l.length =
      l.countP (fun t => decide (t.status = TodoStatus.pending)) +
        l.countP (fun t => decide (t.status = TodoStatus.in_progress)) +
        l.countP (fun t => decide (t.status = TodoStatus.completed)) := by
  induction l with
  | nil => rfl
  | cons x l ih =>
    simp only [List.countP_cons, List.length_cons]
    cases hx : x.status <;> simp [hx] <;> omega

theorem length_eq_sum_priority_counts (l : List Todo) :
    l.length =
      l.countP (fun t => decide (t.priority = TodoPriority.low)) +
        l.countP (fun t => decide (t.priority = TodoPriority.medium)) +
        l.countP (fun t => decide (t.priority = TodoPriority.high)) := by
  induction l with
  | nil => rfl
  | cons x l ih =>
    simp only [List.countP_cons, List.length_cons]
    cases hx : x.priority <;> simp [hx] <;> omega

/-- C3: for every store state, the stats object carries all six category
counters (they are fields of the result record, so they are present even
at zero), `total` equals the sum of the three by-status counts and also
the sum of the three by-priority counts, and on an empty store (any
next-id value) every counter is exactly zero.  The embedding types
`get_stats` as a pure function of the state, so the call cannot change
the store. -/
theorem get_stats_consistent (s : TodoService) (n : Nat) :
    (get_stats s).total =
        (get_stats s).pending + (get_stats s).in_progress + (get_stats s).completed ∧
    (get_stats s).total =
        (get_stats s).low + (get_stats s).medium + (get_stats s).high ∧
    get_stats { todos := [], next_id := n } =
      { total := 0, pending := 0, in_progress := 0, completed := 0,
        low := 0, medium := 0, high := 0 } := by
  refine ⟨?_, ?_, rfl⟩
  · simp only [get_stats]
    by_cases h : (s.todos.map Prod.snd).length = 0
    · rw [if_pos h]; rfl
    · rw [if_neg h]
      exact length_eq_sum_status_counts _
  · simp only [get_stats]
    by_cases h : (s.todos.map Prod.snd).length = 0
    · rw [if_pos h]; rfl
    · rw [if_neg h]
      exact length_eq_sum_priority_counts _

/-! ## C4: clearCompleted removes exactly the completed entities -/

theorem foldl_dictErase_cons_of_notmem (ids : List Nat) :
    ∀ (x : Nat × Todo) (m : List (Nat × Todo)), x.1 ∉ ids →
      ids.foldl dictErase (x :: m) = x :: ids.foldl dictErase m := by
  induction ids with
  | nil => intro x m _; rfl
  | cons i is ih =>
    intro x m hx
    have hxi : ¬ x.1 = i := fun e => hx (e ▸ List.mem_cons_self i is)
    have hxis : x.1 ∉ is := fun hmem => hx (List.mem_cons_of_mem _ hmem)
    simp only [List.foldl_cons, dictErase, if_neg hxi]
    exact ih x (dictErase m i) hxis

theorem foldl_dictErase_completed (m : List (Nat × Todo))
    (h : (m.map Prod.fst).Nodup) :
    ((m.filter (fun p => decide (p.2.status = TodoStatus.completed))).map Prod.fst).foldl
        dictErase m =
      m.filter (fun p => !decide (p.2.status = TodoStatus.completed)) := by
  induction m with
  | nil => rfl
  | cons x m ih =>
    have hx : x.1 ∉ m.map Prod.fst := (List.nodup_cons.mp h).1
    have hm : (m.map Prod.fst).Nodup := (List.nodup_cons.mp h).2
    by_cases hc : x.2.status = TodoStatus.completed
    · have hfil :
          (x :: m).filter (fun p => decide (p.2.status = TodoStatus.completed)) =
            x :: m.filter (fun p => decide (p.2.status = TodoStatus.completed)) := by
        simp [List.filter_cons, hc]
      rw [hfil, List.map_cons, List.foldl_cons]
      have herase : dictErase (x :: m) x.1 = m := by
        simp [dictErase]
      rw [herase, ih hm]
      simp [List.filter_cons, hc]
    · have hfil :
          (x :: m).filter (fun p => decide (p.2.status = TodoStatus.completed)) =
            m.filter (fun p => decide (p.2.status = TodoStatus.completed)) := by
        simp [List.filter_cons, hc]
      rw [hfil]
      have hnotmem :
          x.1 ∉ (m.filter (fun p => decide (p.2.status = TodoStatus.completed))).map Prod.fst :=
        fun hmem => hx (List.map_subset Prod.fst (List.filter_subset' m) hmem)
      rw [foldl_dictErase_cons_of_notmem _ x m hnotmem, ih hm]
      simp [List.filter_cons, hc]

/-- C4: for every store state with distinct keys (as every Python dict
has), `clear_completed` removes exactly the entities whose status is
completed — the remaining dict is the original with precisely the
completed entries dropped, every other entry unchanged and in place —
returns the number removed (the count of completed entries, 0 when none
are completed), leaves the id counter alone, and an immediately repeated
call returns 0. -/
theorem clear_completed_exact (s : TodoService)
    (h : (s.todos.map Prod.fst).Nodup) :
    (clear_completed s).2.todos =
        s.todos.filter (fun p => !decide (p.2.status = TodoStatus.completed)) ∧
    (clear_completed s).1 =
        s.todos.countP (fun p => decide (p.2.status = TodoStatus.completed)) ∧
    (clear_completed s).2.next_id = s.next_id ∧
    (clear_completed (clear_completed s).2).1 = 0 := by
  have h1 : (clear_completed s).2.todos =
      s.todos.filter (fun p => !decide (p.2.status = TodoStatus.completed)) :=
    foldl_dictErase_completed s.todos h
  refine ⟨h1, ?_, rfl, ?_⟩
  · show ((s.todos.filter _).map Prod.fst).length = _
    rw [List.length_map, List.countP_eq_length_filter]
  · show ((((clear_completed s).2.todos.filter
        (fun p => decide (p.2.status = TodoStatus.completed))).map Prod.fst).length) = 0
    rw [h1, List.filter_filter]
    simp

/-- Witness for C4 at a store holding one pending and one completed todo:
the completed one is removed, the count is 1, and a second sweep removes
nothing. -/
theorem clear_completed_exact_witness :
    (clear_completed sampleService2).2.todos = [(1, sampleTodo)] ∧
    (clear_completed sampleService2).1 = 1 ∧
    (clear_completed (clear_completed sampleService2).2).1 = 0 := by
  obtain ⟨h1, h2, -, h4⟩ := clear_completed_exact sampleService2 (by decide)
  refine ⟨?_, ?_, h4⟩
  · rw [h1]; rfl
  · rw [h2]; rfl

/-! ## Membership through the filter stages and the sort -/

theorem mem_statusFilter (o : Option TodoStatus) (l : List Todo) (t : Todo) :
    t ∈ statusFilter o l ↔ t ∈ l ∧ ∀ x, o = some x → t.status = x := by
  cases o <;> simp [statusFilter, List.mem_filter]

theorem mem_priorityFilter (o : Option TodoPriority) (l : List Todo) (t : Todo) :
    t ∈ priorityFilter o l ↔ t ∈ l ∧ ∀ x, o = some x → t.priority = x := by
  cases o <;> simp [priorityFilter, List.mem_filter]

theorem mem_searchFilter (o : Option String) (l : List Todo) (t : Todo) :
    t ∈ searchFilter o l ↔
      t ∈ l ∧ ∀ q, o = some q → ¬ q = "" → searchMatch (lower q) t = true := by
  rcases o with _ | q
  · simp [searchFilter]
  · by_cases hq : q = "" <;> simp [searchFilter, hq, List.mem_filter]

theorem mem_filtered_iff (s : TodoService) (status : Option TodoStatus)
    (priority : Option TodoPriority) (search : Option String) (t : Todo) :
    t ∈ filtered_todos s status priority search ↔
      t ∈ s.todos.map Prod.snd ∧
      (∀ x, status = some x → t.status = x) ∧
      (∀ x, priority = some x → t.priority = x) ∧
      (∀ q, search = some q → ¬ q = "" → searchMatch (lower q) t = true) := by
  unfold filtered_todos
  rw [mem_searchFilter, mem_priorityFilter, mem_statusFilter]
  tauto

theorem mem_list_todos_iff (s : TodoService) (status : Option TodoStatus)
    (priority : Option TodoPriority) (search : Option String) (t : Todo) :
    t ∈ list_todos s status priority search ↔
      t ∈ filtered_todos s status priority search := by
  unfold list_todos
  exact List.mem_mergeSort

theorem createdAtDesc_trans (a b c : Todo) :
    createdAtDesc a b → createdAtDesc b c → createdAtDesc a c := by
  simp only [createdAtDesc, decide_eq_true_eq]
  omega

theorem createdAtDesc_total (a b : Todo) :
    createdAtDesc a b || createdAtDesc b a := by
  simp only [createdAtDesc, Bool.or_eq_true, decide_eq_true_eq]
  omega

/-! ## C5: list output is sorted newest-first, deterministically -/

/-- C5: for every store state and filter combination, the list result is
sorted by `created_at` descending; when nothing passes the filters the
result is the empty list (the return type is a sequence, never an
absence signal); and the order is deterministic for equal timestamps:
any two tied elements appear in the output in exactly the relative order
the insertion sequence gave them (the sort is stable), so the same
insertion sequence always produces the same output. -/
theorem list_todos_sorted (s : TodoService) (status : Option TodoStatus)
    (priority : Option TodoPriority) (search : Option String) :
    List.Pairwise (fun a b : Todo => b.created_at ≤ a.created_at)
        (list_todos s status priority search) ∧
    (filtered_todos s status priority search = [] →
      list_todos s status priority search = []) ∧
    (∀ a b : Todo, a.created_at = b.created_at →
      List.Sublist [a, b] (filtered_todos s status priority search) →
      List.Sublist [a, b] (list_todos s status priority search)) := by
  refine ⟨?_, ?_, ?_⟩
  · exact (List.sorted_mergeSort createdAtDesc_trans createdAtDesc_total
      (filtered_todos s status priority search)).imp
      (fun h => by simpa [createdAtDesc] using h)
  · intro h
    simp [list_todos, h]
  · intro a b hab hsub
    exact List.pair_sublist_mergeSort createdAtDesc_trans createdAtDesc_total
      (by simp [createdAtDesc, hab]) hsub

/-- Witness for C5: the empty store gives the empty list, and the two
todos tied at `created_at = 7` stay in insertion order in the output. -/
theorem list_todos_sorted_witness :
    list_todos initService none none none = [] ∧
    List.Sublist [tieA, tieB] (list_todos tieService none none none) :=
  ⟨(list_todos_sorted initService none none none).2.1 rfl,
   (list_todos_sorted tieService none none none).2.2 tieA tieB rfl (by decide)⟩

/-! ## C6: filters are exact-match and compose as AND -/

/-- C6: for every store state, a status-filtered list holds exactly the
members of the unfiltered list whose status is the requested one; the
three filters compose as logical AND (membership under a combination is
membership under each filter alone); and the union of the three
status-filtered lists, with no other filter, is the unfiltered list as a
set. -/
theorem list_filters_compose (s : TodoService) (st : TodoStatus)
    (status : Option TodoStatus) (priority : Option TodoPriority)
    (search : Option String) (t : Todo) :
    (t ∈ list_todos s (some st) none none ↔
      t ∈ list_todos s none none none ∧ t.status = st) ∧
    (t ∈ list_todos s status priority search ↔
      t ∈ list_todos s status none none ∧
      t ∈ list_todos s none priority none ∧
      t ∈ list_todos s none none search) ∧
    (t ∈ list_todos s none none none ↔
      t ∈ list_todos s (some TodoStatus.pending) none none ∨
      t ∈ list_todos s (some TodoStatus.in_progress) none none ∨
      t ∈ list_todos s (some TodoStatus.completed) none none) := by
  have ht3 : t.status = TodoStatus.pending ∨ t.status = TodoStatus.in_progress ∨
      t.status = TodoStatus.completed := by
    cases t.status <;> simp
  simp only [mem_list_todos_iff, mem_filtered_iff, Option.some.injEq,
    forall_eq', reduceCtorEq, false_implies, forall_const, implies_true,
    and_true, true_and]
  refine ⟨by tauto, by tauto, by tauto⟩

/-! ## C7: search is case-insensitive substring on title or description -/

theorem eq_empty_of_data_nil (q : String) (h : q.data = []) : q = "" := by
  cases q
  simp only at h
  subst h
  rfl

/-- C7: for every store state and search string, the search-filtered list
keeps exactly the stored entities in which the lowercased search text
occurs as a contiguous substring of the lowercased title, or, when a
description is present, of the lowercased description.  An entity with an
absent description can only be kept through its title.  (An empty search
string is falsy in the code and filters nothing, which agrees with the
right-hand side since the empty string is a substring of every title.) -/
theorem search_filter_semantics (s : TodoService) (q : String) (t : Todo) :
    t ∈ list_todos s none none (some q) ↔
      t ∈ s.todos.map Prod.snd ∧
        (lower q <:+: lower t.title ∨
          ∃ d, t.description = some d ∧ lower q <:+: lower d) := by
  rw [mem_list_todos_iff, mem_filtered_iff]
  simp only [Option.some.injEq, forall_eq', reduceCtorEq, false_implies,
    forall_const, implies_true, true_and, and_true]
  refine and_congr_right (fun _ => ?_)
  by_cases hq : q = ""
  · subst hq
    simp [lower, searchMatch]
  · simp only [hq, not_false_iff, true_implies]
    constructor
    · intro h
      unfold searchMatch at h
      rcases hd : t.description with _ | d
      · rw [hd] at h
        simp at h
        exact Or.inl h
      · rw [hd] at h
        simp at h
        rcases h with h | ⟨hne, hinf⟩
        · exact Or.inl h
        · exact Or.inr ⟨d, rfl, hinf⟩
    · intro h
      unfold searchMatch
      rcases h with h | ⟨d, hd, hinf⟩
      · simp [h]
      · rw [hd]
        by_cases hde : d = ""
        · exfalso
          subst hde
          have hnil : lower q = [] := List.eq_nil_of_infix_nil hinf
          exact hq (eq_empty_of_data_nil q (by simpa [lower] using hnil))
        · simp [hde, hinf]

end TodoApp
